import Mathlib

/-!
Shallow embedding of the Monarch Learning Platform backend (Python/Django)
for verification of its natural-language specification.

Conventions used throughout:
* Python strings are Lean `String`s; slicing, stripping and lower-casing are
  modelled over the character list (`String.data`), which matches Python's
  code-point based semantics for the ASCII data these functions handle.
* JSON values (the results of `json.loads`) are the inductive `JVal`;
  Python truthiness of such values is `JVal.truthy`.
* Fallible Python code (functions that may `raise`) returns `Except String α`,
  the `String` being the exception message.
* Calls into external libraries (`json.loads`, `re`-based extraction, the AI
  provider) are passed in as explicit function parameters, so each embedded
  repository function is parametric exactly in its external dependencies.
-/

namespace Monarch

/-! ### Python string primitives -/

/-- The whitespace characters stripped by Python's `str.strip()`. -/
def pyIsSpace (c : Char) : Bool :=
  c = ' ' || c = '\t' || c = '\n' || c = '\r' || c = '\x0b' || c = '\x0c'

/-- `str.strip()` on a character list: drop whitespace at both ends. -/
def stripChars (l : List Char) : List Char :=
  ((l.dropWhile pyIsSpace).reverse.dropWhile pyIsSpace).reverse

/-- Python `str.strip()`. -/
def pyStrip (s : String) : String := String.mk (stripChars s.data)

/-- Python slicing `s[:n]` (by code points). -/
def pyTake (n : Nat) (s : String) : String := String.mk (s.data.take n)

/-- Python `str.lower()` (ASCII data). -/
def pyLower (s : String) : String := String.mk (s.data.map Char.toLower)

/-- `needle` is a prefix of `hay` (character lists). -/
def isPrefixB : List Char → List Char → Bool
  | [], _ => true
  | _ :: _, [] => false
  | a :: as, b :: bs => a = b && isPrefixB as bs

/-- Python's substring containment `needle in hay` on character lists. -/
def containsSub (needle : List Char) : List Char → Bool
  | [] => isPrefixB needle []
  | c :: rest => isPrefixB needle (c :: rest) || containsSub needle rest

/-- Python's `needle in hay` for strings. -/
def strContains (hay needle : String) : Bool := containsSub needle.data hay.data

/-- Well-formedness of the digit part of a Python `int()` literal:
digits with single underscores allowed between digits
(`int("1_900")` parses in Python 3, `int("19_")` does not). -/
def pyDigitsOk : List Char → Bool
  | [] => true
  | c :: rest =>
    if c.isDigit then pyDigitsOk rest
    else
      c = '_' &&
        (match rest with
         | d :: _ => d.isDigit
         | [] => false) &&
        pyDigitsOk rest

/-- Numeric value of a valid digit sequence (underscores skipped). -/
def digitsVal (l : List Char) : Nat :=
  l.foldl (fun acc c => if c = '_' then acc else 10 * acc + (c.toNat - '0'.toNat)) 0

/-- Parse a non-empty digit sequence (leading character must be a digit). -/
def pyParseDigits (l : List Char) : Option Nat :=
  match l with
  | [] => none
  | c :: _ => if c.isDigit && pyDigitsOk l then some (digitsVal l) else none

/-- Python `int(s)` for a string argument: surrounding whitespace, an
optional sign, then digits; `none` models `ValueError`. -/
def pyIntOfString (s : String) : Option Int :=
  match stripChars s.data with
  | '+' :: rest => (pyParseDigits rest).map (fun n => (n : Int))
  | '-' :: rest => (pyParseDigits rest).map (fun n => -(n : Int))
  | rest => (pyParseDigits rest).map (fun n => (n : Int))

/-! ### JSON / Python values -/

/-- A JSON value as produced by `json.loads` (numbers restricted to
integers; the code under verification only ever consumes integral
numbers). Doubles as the model of plain Python values. -/
inductive JVal : Type where
  | null : JVal
  | bool (b : Bool) : JVal
  | num (n : Int) : JVal
  | str (s : String) : JVal
  | arr (elems : List JVal) : JVal
  | obj (fields : List (String × JVal)) : JVal

/-- Python truthiness of a `JVal` (`None`, `False`, `0`, `""`, `[]`, `{}`
are falsy). -/
def JVal.truthy : JVal → Bool
  | .null => false
  | .bool b => b
  | .num n => n ≠ 0
  | .str s => s ≠ ""
  | .arr elems => !elems.isEmpty
  | .obj fields => !fields.isEmpty

mutual

/-- Python `str(v)` of a JSON value. Mirrors CPython rendering:
`None`/`True`/`False`, decimal integers, strings verbatim, and the
`repr`-style rendering of lists and dicts (string escaping inside `repr`
is not modelled — no escape-needing string reaches `str()` here). -/
def pyStr : JVal → String
  | .null => "None"
  | .bool true => "True"
  | .bool false => "False"
  | .num n => toString n
  | .str s => s
  | .arr elems => "[" ++ String.intercalate ", " (pyReprList elems) ++ "]"
  | .obj fields => "\x7b" ++ String.intercalate ", " (pyReprFields fields) ++ "\x7d"

/-- Python `repr(v)` of a JSON value: like `str(v)` except that strings
get quotes. -/
def pyRepr : JVal → String
  | .str s => "\x27" ++ s ++ "\x27"
  | .null => "None"
  | .bool true => "True"
  | .bool false => "False"
  | .num n => toString n
  | .arr elems => "[" ++ String.intercalate ", " (pyReprList elems) ++ "]"
  | .obj fields => "\x7b" ++ String.intercalate ", " (pyReprFields fields) ++ "\x7d"
termination_by structural v => v

/-- `repr` of each element of a list. -/
def pyReprList : List JVal → List String
  | [] => []
  | v :: rest => pyRepr v :: pyReprList rest
termination_by structural l => l

/-- `repr` of each `key: value` pair of a dict. -/
def pyReprFields : List (String × JVal) → List String
  | [] => []
  | (k, v) :: rest => ("\x27" ++ k ++ "\x27: " ++ pyRepr v) :: pyReprFields rest
termination_by structural l => l

end

/-- Python `int(v)` on a JSON value; `none` models
`ValueError`/`TypeError` (both are caught by the callers modelled here). -/
def pyIntOf : JVal → Option Int
  | .num n => some n
  | .bool true => some 1
  | .bool false => some 0
  | .str s => pyIntOfString s
  | _ => none

/-- Dict lookup `d[k]` / `k in d` on the field list of a `JVal.obj`. -/
def jGet (fields : List (String × JVal)) (k : String) : Option JVal :=
  (fields.find? (fun p => p.1 = k)).map (·.2)

end Monarch

namespace Monarch

/-! ### `content/tasks.py` — `index_educational_content` (claim C4) -/

/-- The mutable fields of `EducationalContent` the indexing task touches. -/
structure ContentState : Type where
  indexed : Bool
  indexing_error : String
deriving DecidableEq, Repr

/-- Outcome of one execution of the task when the underlying indexing
call fails with message `e`: either a scheduled retry (with its countdown
in seconds and the persisted state), or the terminal failure state that
is re-raised. Mirrors the `except Exception` branch of
`index_educational_content` (`@shared_task(bind=True, max_retries=3)`). -/
inductive AttemptOutcome : Type where
  | retry (countdown : Nat) (persisted : ContentState) : AttemptOutcome
  | finalFailure (persisted : ContentState) : AttemptOutcome
deriving DecidableEq, Repr

/-- One failing execution of `index_educational_content` at retry counter
`retries`: persist the truncated error, then either reschedule with
countdown `60 * 2 ** retries` (while `retries < max_retries`) or persist
the terminal "failed after N retries" state and re-raise. -/
def indexAttemptOnFailure (maxRetries retries : Nat) (e : String) : AttemptOutcome :=
  if retries < maxRetries then
    .retry (60 * 2 ^ retries) ⟨false, pyTake 1000 e⟩
  else
    .finalFailure
      ⟨false, "Indexing failed after " ++ toString maxRetries ++ " retries: " ++ pyTake 500 e⟩

/-- Run the task against a content whose indexing fails on every attempt,
collecting every scheduled retry countdown and the final persisted state.
`fuel` bounds the recursion; it is instantiated with `maxRetries + 1`,
enough for the initial attempt plus every retry. -/
def runAllFailing (maxRetries : Nat) (e : String) : Nat → Nat → List Nat × ContentState
  | _, 0 => ([], ⟨false, pyTake 1000 e⟩)
  | retries, fuel + 1 =>
    match indexAttemptOnFailure maxRetries retries e with
    | .retry countdown _ =>
      let (ds, fin) := runAllFailing maxRetries e (retries + 1) fuel
      (countdown :: ds, fin)
    | .finalFailure st => ([], st)

/-- The full lifecycle of `index_educational_content` for a content id
whose indexing fails on every attempt with message `e`: the list of retry
countdowns scheduled, and the content state left behind by the last
(re-raising) execution. `max_retries` is 3 in the decorator. -/
def indexingLifecycleAllFailing (e : String) : List Nat × ContentState :=
  runAllFailing 3 e 0 4

/-! ### `students/views.py` — `generate_assessment` clamp (claim C10) -/

/-- `num_questions = min(max(num_questions, 3), 10)` in the
`generate_assessment` view. -/
def clampNumQuestions (n : Int) : Int := min (max n 3) 10

/-! ### `analytics/services.py` — `_identify_weak_topics` (claim C2) -/

/-- Truthiness of an optional topic string (`if gap.topic:` in Python —
`None` and the empty string are falsy). -/
def topicTruthy : Option String → Bool
  | some t => t ≠ ""
  | none => false

/-- The topics inserted into `weak_topics_set`, in program order: every
truthy gap topic first, then every truthy topic of an assessment with
`score < 70`. (`gaps` are the unresolved gaps for the subject ordered by
descending severity; `assessments` carry `(topic, score)`.) -/
def insertedTopics (gaps : List (Option String))
    (assessments : List (Option String × Int)) : List String :=
  (gaps.filter topicTruthy).filterMap id ++
    ((assessments.filter (fun a => a.2 < 70 && topicTruthy a.1)).filterMap (·.1))

/-- `enum` is a possible result of CPython's `list(weak_topics_set)`:
some duplicate-free enumeration of exactly the inserted topics. A `set`
is hash-ordered, so every such enumeration is a possible program
behaviour. -/
def isSetEnumeration (gaps : List (Option String))
    (assessments : List (Option String × Int)) (enum : List String) : Prop :=
  List.Perm enum (insertedTopics gaps assessments).dedup

/-- `_identify_weak_topics`, parametric in the set-iteration order
`enum`: `list(weak_topics_set)[:10]`. -/
def identifyWeakTopics (_gaps : List (Option String))
    (_assessments : List (Option String × Int)) (enum : List String) : List String :=
  enum.take 10

end Monarch

namespace Monarch

/-! ### `content/metadata_extractor.py` — `_normalize_metadata` (claims C7, C8) -/

/-- The extracted-metadata dict through the six keys `_normalize_metadata`
reads (`metadata.get(key)`; a missing key and an explicit JSON `null`
both yield `JVal.null`). -/
structure MetaDict : Type where
  title : JVal
  description : JVal
  subject : JVal
  difficulty : JVal
  author : JVal
  publication_year : JVal

/-- The normalized metadata dict returned by `_normalize_metadata`:
five string fields plus `publication_year`, which the code leaves as a
Python value (a year string, `None`, or a falsy input passed through). -/
structure MetaOut : Type where
  title : String
  description : String
  subject : String
  difficulty : String
  author : String
  publication_year : JVal

/-- `(metadata.get(k) or '').strip()[:limit]` — the `AttributeError` of
calling `.strip()` on a truthy non-string propagates out of
`_normalize_metadata` as an exception. -/
def stripField (v : JVal) (limit : Nat) : Except String String :=
  match (if v.truthy then v else JVal.str "") with
  | .str s => .ok (pyTake limit (pyStrip s))
  | _ => .error "AttributeError"

/-- `(metadata.get('difficulty') or 'beginner').lower()`. -/
def lowerDifficulty (v : JVal) : Except String String :=
  match (if v.truthy then v else JVal.str "beginner") with
  | .str s => .ok (pyLower s)
  | _ => .error "AttributeError"

/-- The `VALID_DIFFICULTIES` set. -/
def validDifficulties : List String := ["beginner", "intermediate", "advanced"]

/-- The `publication_year` validation: only a truthy value is fed to
`int()`; an in-range parse becomes `str(year)`, a failed or out-of-range
parse becomes `None`, and a falsy value is left untouched. -/
def normYear (v : JVal) : JVal :=
  if v.truthy then
    match pyIntOf v with
    | some y => if 1900 ≤ y ∧ y ≤ 2100 then .str (toString y) else .null
    | none => .null
  else v

/-- `MetadataExtractor._normalize_metadata`. -/
def normalizeMetadata (m : MetaDict) : Except String MetaOut := do
  let title ← stripField m.title 500
  let description ← stripField m.description 2000
  let subject ← stripField m.subject 100
  let difficulty0 ← lowerDifficulty m.difficulty
  let author ← stripField m.author 200
  let difficulty := if validDifficulties.contains difficulty0 then difficulty0 else "beginner"
  .ok ⟨title, description, subject, difficulty, author, normYear m.publication_year⟩

/-- Re-reading a normalized result as an input dict (for the idempotence
claim): the five string fields are Python strings, `publication_year` is
whatever value normalization left. -/
def MetaOut.toDict (o : MetaOut) : MetaDict :=
  ⟨.str o.title, .str o.description, .str o.subject, .str o.difficulty, .str o.author,
    o.publication_year⟩

/-! ### `content/services.py` — `query_with_file_search` text extraction (claim C1) -/

/-- A provider-response candidate: its optional `finish_reason` (absent
attribute and `None` both `none`) and optional `content` with `parts`
(each part's optional `text`) and an optional direct `text`. -/
structure GCandidate : Type where
  finishReason : Option String
  contentParts : List (Option String)
  contentText : Option String
  hasContent : Bool

/-- A provider response: optional top-level `text`, the candidate list,
and `str(response)` for the last-resort strategy. -/
structure GResponse : Type where
  text : Option String
  candidates : List GCandidate
  strRepr : String

/-- Truthiness of an optional string attribute (`hasattr(x, a) and x.a`). -/
def optTruthy : Option String → Bool
  | some s => s ≠ ""
  | none => false

/-- The message of the blocked-content exception raised inside the
candidate loop. -/
def blockedMsg (finishReason : String) : String :=
  "Gemini blocked the response (finish_reason: " ++ finishReason ++ "). " ++
    "This may happen if the prompt triggers safety filters. " ++
    "Please try rephrasing your request or check the content."

/-- Text fragments contributed by one candidate: the truthy texts of its
content parts if any, else its content's direct truthy text. -/
def candidateParts (c : GCandidate) : List String :=
  if c.hasContent then
    if !c.contentParts.isEmpty then
      c.contentParts.filterMap (fun p => match p with
        | some t => if t ≠ "" then some t else none
        | none => none)
    else match c.contentText with
      | some t => if t ≠ "" then [t] else []
      | none => []
  else []

/-- The candidate loop of extraction strategy 2: raise the blocked error
at the first candidate whose truthy finish reason is neither
`"STOP"`-valued nor outside `{"RECITATION", "SAFETY"}`; otherwise
accumulate every candidate's text parts. -/
def collectCandidates : List GCandidate → Except String (List String)
  | [] => .ok []
  | c :: rest =>
    if optTruthy c.finishReason && c.finishReason.getD "" ≠ "STOP" &&
        (c.finishReason.getD "" = "RECITATION" || c.finishReason.getD "" = "SAFETY") then
      .error (blockedMsg (c.finishReason.getD ""))
    else do
      let tail ← collectCandidates rest
      .ok (candidateParts c ++ tail)

/-- The three-strategy text extraction of `query_with_file_search`,
before the final `.strip()`. -/
def extractTextCore (r : GResponse) : Except String String := do
  let afterTwo ←
    if optTruthy r.text then
      .ok (r.text.getD "")
    else if !r.candidates.isEmpty then do
      let parts ← collectCandidates r.candidates
      .ok (if !parts.isEmpty then String.intercalate "\n" parts else "")
    else
      .ok ""
  if afterTwo = "" then
    if r.strRepr ≠ "" && r.strRepr.length > 50 && !(pyTake 1 r.strRepr = "<") then
      .ok r.strRepr
    else
      .ok ""
  else
    .ok afterTwo

/-- The `text` field of the `query_with_file_search` result: the
extracted text stripped, with any exception re-raised as
`"Query failed: ..."` by the function's outer handler. -/
def queryResultText (r : GResponse) : Except String String :=
  match extractTextCore r with
  | .error m => .error ("Query failed: " ++ m)
  | .ok t => .ok (pyStrip t)

end Monarch

namespace Monarch

/-! ### `students/services.py` — `_parse_ai_questions_response` (claims C3, C5) -/

/-- One validated, normalized assessment question. -/
structure Question : Type where
  id : String
  question : String
  options : List String
  correct_answer : String
  explanation : String
deriving DecidableEq, Repr

/-- The `no_content_indicators` list. -/
def noContentIndicators : List String :=
  ["unable to generate", "no educational content", "no content was provided",
   "no content found", "content was not found", "unable to find", "no files found",
   "no matching content", "no relevant content found"]

/-- The `general_knowledge_indicators` list. -/
def generalKnowledgeIndicators : List String :=
  ["based on general knowledge", "using general knowledge", "from general knowledge",
   "general understanding", "common knowledge", "widely known",
   "not found in the provided content", "not in the uploaded", "not in the provided"]

/-- `any(indicator in hay for indicator in needles)`. -/
def containsAny (hay : String) (needles : List String) : Bool :=
  needles.any (fun n => strContains hay n)

/-- The policy-violation exception message for general-knowledge answers. -/
def policyViolationMsg : String :=
  "Assessment questions must be based only on uploaded content. " ++
    "The AI attempted to use general knowledge, which is not allowed."

/-- The fallback no-content exception message. -/
def noContentMsg : String :=
  "No relevant content found for this subject/topic in the uploaded materials. " ++
    "Please upload content for this subject first."

/-- The message raised by the no-content branch: if the stripped response
parses as a JSON object with an `error` field, that field's rendering;
otherwise the fixed message. -/
def noContentError (jsonLoads : String → Option JVal) (text : String) : String :=
  match jsonLoads (pyStrip text) with
  | some (.obj fields) =>
    match jGet fields "error" with
    | some v => pyStr v
    | none => noContentMsg
  | _ => noContentMsg

/-- The `options` coercion: a string value is JSON-parsed, falling back
to comma-splitting with per-item strip; other values pass through. -/
def coerceOptions (jsonLoads : String → Option JVal) (v : JVal) : JVal :=
  match v with
  | .str s =>
    match jsonLoads s with
    | some v2 => v2
    | none => .arr ((s.splitOn ",").map (fun o => JVal.str (pyStrip o)))
  | _ => v

/-- Validation/normalization of the entry at position `i` of the parsed
array: skip (`none`) non-objects, entries missing a required key, and
entries whose coerced options are not exactly 4; otherwise normalize,
with the id taken from the enumeration index `i`. -/
def normEntry (jsonLoads : String → Option JVal) (i : Nat) (v : JVal) : Option Question :=
  match v with
  | .obj fields =>
    match jGet fields "question", jGet fields "options", jGet fields "correct_answer" with
    | some q, some opts, some ca =>
      match coerceOptions jsonLoads opts with
      | .arr l =>
        if l.length = 4 then
          some
            { id := "q" ++ toString (i + 1)
              question := pyStrip (pyStr q)
              options := l.map (fun o => pyStrip (pyStr o))
              correct_answer := pyStrip (pyStr ca)
              explanation :=
                pyStrip (pyStr ((jGet fields "explanation").getD
                  (.str "This is the correct answer."))) }
        else none
      | _ => none
    | _, _, _ => none
  | _ => none

/-- The validation loop (`for i, q_data in enumerate(questions_data)`),
breaking once `i >= expected_count`. -/
def validateGo (jsonLoads : String → Option JVal) (i n : Nat) : List JVal → List Question
  | [] => []
  | v :: rest =>
    if n ≤ i then []
    else
      match normEntry jsonLoads i v with
      | none => validateGo jsonLoads (i + 1) n rest
      | some q => q :: validateGo jsonLoads (i + 1) n rest

/-- Lines 449–495 of `students/services.py`: validate and normalize the
entries of the parsed question array. -/
def validateQuestions (jsonLoads : String → Option JVal) (data : List JVal) (n : Nat) :
    List Question :=
  validateGo jsonLoads 0 n data

/-- The questions obtained from the extracted `questions_data` value
(`none` when no extraction strategy produced one): a falsy value returns
no questions, a list is validated, a dict is unwrapped through its
`questions` key (iterating any other unwrapped value yields no valid
entry, and a non-iterable raises into the wrapper's handler — both give
an empty list), and any other value logs "Expected list" and returns
none. -/
def extractedQuestions (jsonLoads : String → Option JVal) (extract : Option JVal)
    (expectedCount : Nat) : List Question :=
  match extract with
  | none => []
  | some data =>
    if !data.truthy then []
    else
      match data with
      | .arr l => validateQuestions jsonLoads l expectedCount
      | .obj fields =>
        match jGet fields "questions" with
        | some (.arr l) => validateQuestions jsonLoads l expectedCount
        | some _ => []
        | none => []
      | _ => []

/-- `_parse_ai_questions_response`, parametric in `json.loads`
(`jsonLoads`) and in the regex-based JSON-extraction strategies 1–4
(`extractRaw`, returning the extracted `questions_data` value or `none`
when no strategy produced one). -/
def parseAIQuestionsResponse (jsonLoads : String → Option JVal)
    (extractRaw : String → Option JVal) (text : String) (expectedCount : Nat) :
    Except String (List Question) :=
  if pyStrip text = "" then .ok []
  else
    let lower := pyLower text
    if containsAny lower noContentIndicators then .error (noContentError jsonLoads text)
    else if containsAny lower generalKnowledgeIndicators then .error policyViolationMsg
    else .ok (extractedQuestions jsonLoads (extractRaw text) expectedCount)

/-! ### `students/services.py` — `_generate_questions_with_ai` /
`generate_assessment` (claims C3, C10) -/

/-- `_generate_questions_with_ai` from the provider's response text on:
its `except Exception` handler converts any parse exception into an
empty question list. -/
def generateQuestionsFromText (jsonLoads : String → Option JVal)
    (extractRaw : String → Option JVal) (text : String) (n : Nat) : List Question :=
  match parseAIQuestionsResponse jsonLoads extractRaw text n with
  | .error _ => []
  | .ok qs => qs

/-- The generic failure message `generate_assessment` raises when no
questions come back. -/
def failedGenerationMsg : String :=
  "Failed to generate assessment questions. This may happen if: " ++
    "1) No educational content is available for this subject, " ++
    "2) The content doesn\x27t match the requested topic, or " ++
    "3) There was an issue parsing the AI response. " ++
    "Please try uploading content for this subject or try a different subject/topic."

/-- The question pipeline of `generate_assessment`: generate from the
provider response text, then fail hard with the generic message when the
list is empty. -/
def generateAssessmentQuestions (jsonLoads : String → Option JVal)
    (extractRaw : String → Option JVal) (text : String) (n : Nat) :
    Except String (List Question) :=
  let qs := generateQuestionsFromText jsonLoads extractRaw text n
  if qs.isEmpty then .error failedGenerationMsg else .ok qs

/-! ### `tutoring/consumers.py` — `handle_message` (claim C9) -/

/-- The database rows the WebSocket handler touches: conversation ids
and `(conversation_id, role, content)` message rows. -/
structure TutorDb : Type where
  nextConvId : Nat
  conversations : List Nat
  messages : List (Nat × String × String)
deriving DecidableEq, Repr

/-- The consumer's per-socket state (`self.conversation_id`). -/
structure ConsumerState : Type where
  conversationId : Option Nat
deriving DecidableEq, Repr

/-- The events the handler sends back over the socket. -/
inductive WsReply : Type where
  | errorReply (msg : String) : WsReply
  | chatReplies (userContent assistantContent : String) : WsReply
deriving DecidableEq, Repr

/-- `TutorBotConsumer.handle_message`: implicitly create a conversation
when none is active, then reject empty (post-strip) text with an error
reply, else persist the user message, generate a reply (`respond` models
the tutor-bot service), and persist the assistant message. -/
def handleMessage (respond : String → String) (st : ConsumerState) (db : TutorDb)
    (rawText : String) : ConsumerState × TutorDb × WsReply :=
  let createdPair :=
    match st.conversationId with
    | none =>
      (ConsumerState.mk (some db.nextConvId),
        TutorDb.mk (db.nextConvId + 1) (db.conversations ++ [db.nextConvId]) db.messages)
    | some _ => (st, db)
  let st2 := createdPair.1
  let db2 := createdPair.2
  let query := pyStrip rawText
  if query = "" then (st2, db2, .errorReply "Message is required")
  else
    let cid := st2.conversationId.getD 0
    let answer := respond query
    (st2,
      TutorDb.mk db2.nextConvId db2.conversations
        (db2.messages ++ [(cid, "user", query), (cid, "assistant", answer)]),
      .chatReplies query answer)

/-! ### `tutoring/views.py` — `send_message` history (claim C6) -/

/-- A persisted chat message with its creation timestamp. -/
structure ChatMsg : Type where
  role : String
  content : String
  createdAt : Nat
deriving DecidableEq, Repr

/-- The history `send_message` passes to the tutor-bot service:
`Message.objects.by_conversation(id).order_by('created_at')[:20]`.
`msgs` is the conversation's message list in ascending `created_at`
order, i.e. exactly the rows the `order_by('created_at')` scan yields;
the slice takes its first 20, rendered as `{role, content}` pairs. (The
prefetched `recent_messages[:20]` branch slices the same ascending
order, so it is covered by the same model.) -/
def sendMessageHistory (msgs : List ChatMsg) : List (String × String) :=
  (msgs.take 20).map (fun m => (m.role, m.content))

/-- Modelled from the spec: "loads up to the 20 most recent messages for
history" — the last 20 of the conversation's messages in ascending
`created_at` order. -/
def mostRecentTwenty (msgs : List ChatMsg) : List (String × String) :=
  (msgs.drop (msgs.length - 20)).map (fun m => (m.role, m.content))

end Monarch

namespace Monarch

/-! ### Helper lemmas on the string primitives -/

theorem isPrefixB_append (n h t : List Char) (hp : isPrefixB n h = true) :
    isPrefixB n (h ++ t) = true := by
  induction n generalizing h with
  | nil => simp [isPrefixB]
  | cons a as ih =>
    cases h with
    | nil => simp [isPrefixB] at hp
    | cons b bs =>
      simp only [isPrefixB, Bool.and_eq_true] at hp ⊢
      exact ⟨hp.1, ih bs hp.2⟩

theorem containsSub_append_right (n h t : List Char) (hc : containsSub n h = true) :
    containsSub n (h ++ t) = true := by
  induction h with
  | nil =>
    simp only [containsSub] at hc
    cases n with
    | nil =>
      cases t with
      | nil => simpa [containsSub] using hc
      | cons c cs => simp [containsSub, isPrefixB]
    | cons a as => simp [isPrefixB] at hc
  | cons c cs ih =>
    simp only [containsSub, Bool.or_eq_true] at hc ⊢
    rcases hc with hp | hrest
    · exact Or.inl (isPrefixB_append _ _ _ hp)
    · exact Or.inr (ih hrest)

theorem strContains_append_left (a b n : String) (h : strContains a n = true) :
    strContains (a ++ b) n = true := by
  unfold strContains at h ⊢
  rw [String.data_append]
  exact containsSub_append_right _ _ _ h

theorem dropWhile_self_of_head (p : Char → Bool) (l : List Char)
    (h : ∀ c, l.head? = some c → p c = false) : l.dropWhile p = l := by
  cases l with
  | nil => rfl
  | cons c cs => simp [List.dropWhile, h c rfl]

theorem head_dropWhile_false (p : Char → Bool) (l : List Char) :
    ∀ c, (l.dropWhile p).head? = some c → p c = false := by
  induction l with
  | nil => intro c hc; simp at hc
  | cons a as ih =>
    intro c hc
    by_cases hpa : p a = true
    · rw [List.dropWhile_cons_of_pos hpa] at hc
      exact ih c hc
    · rw [List.dropWhile_cons_of_neg hpa] at hc
      simp at hc
      rw [← hc]
      simpa using hpa

theorem getLast_dropWhile_eq (p : Char → Bool) (l : List Char)
    (h : l.dropWhile p ≠ []) : (l.dropWhile p).getLast? = l.getLast? := by
  obtain ⟨pre, hpre⟩ := List.dropWhile_suffix (l := l) p
  conv_rhs => rw [← hpre]
  rw [List.getLast?_append]
  cases hud : (l.dropWhile p).getLast? with
  | none =>
    rw [List.getLast?_eq_none_iff] at hud
    exact absurd hud h
  | some c => simp [Option.or]

theorem dropWhile_dropWhile (p : Char → Bool) (l : List Char) :
    (l.dropWhile p).dropWhile p = l.dropWhile p :=
  dropWhile_self_of_head p _ (head_dropWhile_false p l)

theorem stripChars_idem (l : List Char) : stripChars (stripChars l) = stripChars l := by
  by_cases hnil : stripChars l = []
  · rw [hnil]; rfl
  · have hA : ∀ c, (l.dropWhile pyIsSpace).head? = some c → pyIsSpace c = false :=
      head_dropWhile_false pyIsSpace l
    -- the stripped list has a non-space head: its head is the last element of
    -- the reversed inner dropWhile, which is a suffix of the reversed list
    have hhead : ∀ c, (stripChars l).head? = some c → pyIsSpace c = false := by
      intro c hc
      unfold stripChars at hc
      rw [List.head?_reverse] at hc
      have hne : ((l.dropWhile pyIsSpace).reverse.dropWhile pyIsSpace) ≠ [] := by
        intro hemp
        apply hnil
        unfold stripChars
        rw [hemp]
        rfl
      rw [getLast_dropWhile_eq _ _ hne] at hc
      rw [List.getLast?_reverse] at hc
      exact hA c hc
    have h1 : (stripChars l).dropWhile pyIsSpace = stripChars l :=
      dropWhile_self_of_head _ _ hhead
    have h2 : (stripChars l).reverse.dropWhile pyIsSpace = (stripChars l).reverse := by
      show ((((l.dropWhile pyIsSpace).reverse.dropWhile pyIsSpace).reverse).reverse).dropWhile
          pyIsSpace = _
      rw [List.reverse_reverse]
      rw [dropWhile_dropWhile]
      show _ = (((l.dropWhile pyIsSpace).reverse.dropWhile pyIsSpace).reverse).reverse
      rw [List.reverse_reverse]
    show (((stripChars l).dropWhile pyIsSpace).reverse.dropWhile pyIsSpace).reverse = stripChars l
    rw [h1, h2, List.reverse_reverse]

theorem pyStrip_idem (s : String) : pyStrip (pyStrip s) = pyStrip s := by
  unfold pyStrip
  rw [stripChars_idem]

end Monarch

namespace Monarch

/-! ### Claim C4 — indexing-task retry schedule and terminal state -/

/-- C4: for a content id whose indexing fails on every attempt, the task
schedules exactly the three retries with countdowns 60 s, 120 s and
240 s (60 × 2^attempt), and the final (re-raising) execution leaves the
content with `indexed = false` and an `indexing_error` containing
"after 3 retries"; the countdown list having exactly three entries is
the absence of any further automatic retry. -/
theorem indexing_retry_schedule (e : String) :
    (indexingLifecycleAllFailing e).1 = [60, 120, 240] ∧
    (indexingLifecycleAllFailing e).2 =
      ⟨false, "Indexing failed after 3 retries: " ++ pyTake 500 e⟩ ∧
    strContains (indexingLifecycleAllFailing e).2.indexing_error "after 3 retries" = true := by
  have hrun : indexingLifecycleAllFailing e =
      ([60, 120, 240], ⟨false, "Indexing failed after 3 retries: " ++ pyTake 500 e⟩) := by
    simp only [indexingLifecycleAllFailing, runAllFailing, indexAttemptOnFailure]
    norm_num
    rfl
  refine ⟨by rw [hrun], by rw [hrun], ?_⟩
  rw [hrun]
  exact strContains_append_left "Indexing failed after 3 retries: " (pyTake 500 e)
    "after 3 retries" (by decide)

/-! ### Claim C2 — weak-topic ordering (set-iteration order bug) -/

/-- C2 failing input: one unresolved gap on topic "algebra" and one
assessment on topic "geometry" with score 50. `["geometry", "algebra"]`
is a legitimate enumeration of the resulting Python `set` (its iteration
order is hash-based, not insertion-based), and under it
`_identify_weak_topics` returns the assessment-sourced topic *before*
the gap-sourced topic, contradicting the claimed "gaps first" order (and
the function's own comment). -/
theorem weak_topics_order_bug :
    isSetEnumeration [some "algebra"] [(some "geometry", (50 : Int))] ["geometry", "algebra"] ∧
    identifyWeakTopics [some "algebra"] [(some "geometry", (50 : Int))] ["geometry", "algebra"] =
      ["geometry", "algebra"] := by
  constructor
  · unfold isSetEnumeration
    decide
  · rfl

/-! ### Claim C9 — WebSocket empty message after implicit conversation creation -/

/-- C9: a `message` event whose text strips to empty, arriving when no
conversation is active on the socket, yields the "Message is required"
error reply and writes no message row — but a fresh conversation has
already been created, persisted, and set as the socket's active
conversation. -/
theorem ws_empty_message_creates_conversation (respond : String → String)
    (st : ConsumerState) (db : TutorDb) (rawText : String)
    (hst : st.conversationId = none) (hempty : pyStrip rawText = "") :
    handleMessage respond st db rawText =
      (⟨some db.nextConvId⟩,
        ⟨db.nextConvId + 1, db.conversations ++ [db.nextConvId], db.messages⟩,
        .errorReply "Message is required") := by
  unfold handleMessage
  rw [hst]
  simp [hempty]

/-- Witness for C9 at a concrete socket, database and all-whitespace
message. -/
theorem ws_empty_message_creates_conversation_witness :
    handleMessage (fun q => q) ⟨none⟩ ⟨7, [3, 5], [(3, "user", "hi")]⟩ "  " =
      (⟨some 7⟩, ⟨8, [3, 5, 7], [(3, "user", "hi")]⟩, .errorReply "Message is required") :=
  ws_empty_message_creates_conversation (fun q => q) ⟨none⟩ ⟨7, [3, 5], [(3, "user", "hi")]⟩
    "  " rfl (by decide)

/-! ### Claim C6 — REST send_message history slice -/

/-- C6 failing input: a conversation holding 21 messages (ascending
`created_at` 0..20). The history handed to the tutor bot is the 20
*oldest* messages (`order_by('created_at')[:20]`), not the 20 most
recent: the most recent message `m20` is dropped while the oldest `m0`
is kept. -/
theorem send_message_history_oldest :
    sendMessageHistory ((List.range 21).map (fun t => ⟨"user", "m" ++ toString t, t⟩)) =
      (((List.range 21).map (fun t => ("user", "m" ++ toString t))).take 20) ∧
    sendMessageHistory ((List.range 21).map (fun t => ⟨"user", "m" ++ toString t, t⟩)) ≠
      mostRecentTwenty ((List.range 21).map (fun t => ⟨"user", "m" ++ toString t, t⟩)) := by
  constructor
  · rfl
  · decide

end Monarch

namespace Monarch

/-! ### Claim C1 — blocked-content detection vs. the text-first fallback -/

/-- A provider response carrying both a non-empty top-level text and a
candidate whose finish reason is `SAFETY`. -/
def safetyWithTextResponse : GResponse :=
  ⟨some "The water cycle moves water between oceans and air.",
    [⟨some "SAFETY", [], none, false⟩], "x"⟩

/-- C1 counterexample: when the response carries a non-empty top-level
text field, extraction strategy 1 returns that text immediately and the
candidate loop — the only place finish reasons are inspected — never
runs, so a `SAFETY` candidate does *not* cause a Blocked error. -/
theorem query_blocked_cex :
    (∃ c ∈ safetyWithTextResponse.candidates, c.finishReason = some "SAFETY") ∧
    queryResultText safetyWithTextResponse =
      .ok "The water cycle moves water between oceans and air." := by
  refine ⟨⟨⟨some "SAFETY", [], none, false⟩, ?_, rfl⟩, rfl⟩
  simp [safetyWithTextResponse]

/-- The candidate loop raises the blocked error whenever some candidate
has finish reason `SAFETY` or `RECITATION`. -/
theorem collectCandidates_blocked (cs : List GCandidate)
    (h : ∃ c ∈ cs, c.finishReason = some "SAFETY" ∨ c.finishReason = some "RECITATION") :
    ∃ fr, (fr = "SAFETY" ∨ fr = "RECITATION") ∧
      collectCandidates cs = .error (blockedMsg fr) := by
  induction cs with
  | nil => obtain ⟨c, hc, _⟩ := h; simp at hc
  | cons c rest ih =>
    by_cases hguard : (optTruthy c.finishReason && c.finishReason.getD "" ≠ "STOP" &&
        (c.finishReason.getD "" = "RECITATION" || c.finishReason.getD "" = "SAFETY")) = true
    · refine ⟨c.finishReason.getD "", ?_, ?_⟩
      · simp only [Bool.and_eq_true, Bool.or_eq_true, decide_eq_true_eq] at hguard
        rcases hguard.2 with hr | hs
        · exact Or.inr hr
        · exact Or.inl hs
      · unfold collectCandidates
        rw [if_pos hguard]
    · obtain ⟨c0, hc0, hfr⟩ := h
      rcases List.mem_cons.mp hc0 with hhead | htail
      · exfalso
        apply hguard
        subst hhead
        rcases hfr with hs | hr
        · simp [hs, optTruthy]
        · simp [hr, optTruthy]
      · obtain ⟨fr, hfr2, hrest⟩ := ih ⟨c0, htail, hfr⟩
        refine ⟨fr, hfr2, ?_⟩
        unfold collectCandidates
        rw [if_neg hguard, hrest]
        rfl

/-- C1 amended: the Blocked error is raised exactly when extraction has
to fall back to the candidates — i.e. when the top-level text field is
absent or empty. For every such response with a `SAFETY` or `RECITATION`
candidate, `query_with_file_search` raises (re-wrapped by its outer
handler as "Query failed: Gemini blocked the response ..."). -/
theorem query_blocked_amended (r : GResponse) (htext : optTruthy r.text = false)
    (hbad : ∃ c ∈ r.candidates,
      c.finishReason = some "SAFETY" ∨ c.finishReason = some "RECITATION") :
    ∃ fr, (fr = "SAFETY" ∨ fr = "RECITATION") ∧
      queryResultText r = .error ("Query failed: " ++ blockedMsg fr) := by
  obtain ⟨fr, hfr, hcol⟩ := collectCandidates_blocked r.candidates hbad
  have hne : r.candidates.isEmpty = false := by
    obtain ⟨c, hc, _⟩ := hbad
    cases hcs : r.candidates with
    | nil => rw [hcs] at hc; simp at hc
    | cons a as => rfl
  refine ⟨fr, hfr, ?_⟩
  unfold queryResultText extractTextCore
  rw [htext, hne, hcol]
  rfl

/-- Witness for C1 amended: a response with no top-level text and one
`RECITATION` candidate. -/
theorem query_blocked_amended_witness :
    ∃ fr, (fr = "SAFETY" ∨ fr = "RECITATION") ∧
      queryResultText ⟨none, [⟨some "RECITATION", [], none, false⟩], ""⟩ =
        .error ("Query failed: " ++ blockedMsg fr) :=
  query_blocked_amended ⟨none, [⟨some "RECITATION", [], none, false⟩], ""⟩ rfl
    ⟨⟨some "RECITATION", [], none, false⟩, by simp, Or.inr rfl⟩

end Monarch

namespace Monarch

/-! ### Claim C3 — the PolicyViolation is raised but swallowed -/

/-- A provider response text that admits using general knowledge (and
contains no "no content found" phrase). -/
def gkText : String := "This answer is based on general knowledge of the topic."

/-- C3 counterexample: the parser does raise the policy-violation
exception, but `_generate_questions_with_ai` catches every exception and
returns an empty list, so `generate_assessment` fails with the generic
"Failed to generate assessment questions..." message — the caller never
sees the "only uploaded content" explanation. (No question is returned,
as the claim says; what fails is the surfaced message.) -/
theorem policy_violation_swallowed_cex :
    parseAIQuestionsResponse (fun _ => none) (fun _ => none) gkText 5 =
      .error policyViolationMsg ∧
    generateQuestionsFromText (fun _ => none) (fun _ => none) gkText 5 = [] ∧
    generateAssessmentQuestions (fun _ => none) (fun _ => none) gkText 5 =
      .error failedGenerationMsg ∧
    failedGenerationMsg ≠ policyViolationMsg := by
  refine ⟨by rfl, by rfl, by rfl, by decide⟩

/-- C3 amended: for every response text containing a general-knowledge
phrase, the parser raises (the policy-violation error, or the no-content
error when a no-content phrase is also present), the wrapper's blanket
`except` turns the exception into an empty question list, and
`generate_assessment` surfaces the generic hard failure; no question from
such a response is ever returned. -/
theorem policy_violation_amended (jsonLoads extractRaw : String → Option JVal)
    (text : String) (n : Nat)
    (h : containsAny (pyLower text) generalKnowledgeIndicators = true) :
    generateQuestionsFromText jsonLoads extractRaw text n = [] ∧
    generateAssessmentQuestions jsonLoads extractRaw text n = .error failedGenerationMsg := by
  have hq : generateQuestionsFromText jsonLoads extractRaw text n = [] := by
    unfold generateQuestionsFromText parseAIQuestionsResponse
    by_cases h0 : pyStrip text = ""
    · simp [h0]
    · by_cases h1 : containsAny (pyLower text) noContentIndicators = true
      · simp [h0, h1]
      · simp [h0, h1, h]
  refine ⟨hq, ?_⟩
  unfold generateAssessmentQuestions
  rw [hq]
  rfl

/-- Witness for C3 amended at the concrete general-knowledge response. -/
theorem policy_violation_amended_witness :
    generateQuestionsFromText (fun _ => none) (fun _ => none) gkText 5 = [] ∧
    generateAssessmentQuestions (fun _ => none) (fun _ => none) gkText 5 =
      .error failedGenerationMsg :=
  policy_violation_amended (fun _ => none) (fun _ => none) gkText 5 (by decide)

end Monarch

namespace Monarch

/-! ### Claim C5 — question ids come from the raw enumeration index -/

/-- A parsed question entry that passes validation. -/
def c5entry : JVal :=
  .obj [("question", .str "What is X?"),
    ("options", .arr [.str "A", .str "B", .str "C", .str "D"]),
    ("correct_answer", .str "A")]

/-- A parsed array whose first entry is invalid (not an object) and whose
second entry is valid. -/
def c5data : List JVal := [.str "not a question object", c5entry]

/-- The normalized form of `c5entry` at enumeration index 1. -/
def c5q : Question :=
  ⟨"q2", "What is X?", ["A", "B", "C", "D"], "A", "This is the correct answer."⟩

/-- C5 counterexample: with an invalid first entry and a valid second
entry, the single surviving question is normalized with id `"q2"` — the
skipped entry consumed an id, so ids are not the 1-based index among the
*surviving* entries (that would be `"q1"`). -/
theorem question_id_cex :
    (validateQuestions (fun _ => none) c5data 5).map Question.id = ["q2"] ∧
    "q2" ≠ "q1" := by
  exact ⟨rfl, by decide⟩

/-- The validation loop is the filterMap of per-index normalization over
the enumerated prefix of the parsed array. -/
theorem validateGo_enumFrom (jl : String → Option JVal) (n : Nat) :
    ∀ (data : List JVal) (i : Nat),
      validateGo jl i n data =
        ((data.take (n - i)).enumFrom i).filterMap (fun p => normEntry jl p.1 p.2) := by
  intro data
  induction data with
  | nil => intro i; simp [validateGo]
  | cons v rest ih =>
    intro i
    by_cases h : n ≤ i
    · have h0 : n - i = 0 := by omega
      simp [validateGo, h, h0]
    · have h1 : n - i = (n - (i + 1)) + 1 := by omega
      unfold validateGo
      rw [if_neg h, h1]
      rw [List.take_succ_cons]
      rw [List.enumFrom_cons]
      cases hne : normEntry jl i v with
      | none => simp [List.filterMap_cons, hne, ih (i + 1)]
      | some q => simp [List.filterMap_cons, hne, ih (i + 1)]

/-- C5 amended: `validateQuestions` is exactly the per-index
normalization of the first `expected_count` parsed entries, and every
normalized entry has id `"q{i+1}"` for its 0-based index `i` in the
*parsed array* (skipped invalid entries consume ids), exactly 4 stripped
option strings, stripped question and correct answer, and the default
explanation when the entry has none. -/
theorem question_normalization_amended (jsonLoads : String → Option JVal)
    (data : List JVal) (n : Nat) :
    validateQuestions jsonLoads data n =
      ((data.take n).enum.filterMap (fun p => normEntry jsonLoads p.1 p.2)) ∧
    (∀ i v q, normEntry jsonLoads i v = some q →
      q.id = "q" ++ toString (i + 1) ∧
      q.options.length = 4 ∧
      (∀ o ∈ q.options, pyStrip o = o) ∧
      pyStrip q.question = q.question ∧
      pyStrip q.correct_answer = q.correct_answer ∧
      pyStrip q.explanation = q.explanation ∧
      (∀ fields, v = .obj fields → jGet fields "explanation" = none →
        q.explanation = "This is the correct answer.")) := by
  constructor
  · have h := validateGo_enumFrom jsonLoads n data 0
    rw [Nat.sub_zero] at h
    exact h
  · intro i v q hq
    cases v with
    | obj fields =>
      simp only [normEntry] at hq
      split at hq
      case _ q0 opts ca hm =>
        split at hq
        case _ l hl =>
          split at hq
          case isTrue hlen =>
            injection hq with hq
            subst hq
            refine ⟨rfl, by simpa using hlen, ?_, pyStrip_idem _, pyStrip_idem _,
              pyStrip_idem _, ?_⟩
            · intro o ho
              obtain ⟨x, _, hx⟩ := List.mem_map.mp ho
              rw [← hx]
              exact pyStrip_idem _
            · intro fields2 hf hnone
              injection hf with hf
              subst hf
              simp only [hnone, Option.getD]
              decide
          case isFalse => exact absurd hq (by simp)
        case _ hne => exact absurd hq (by simp)
      case _ h1 h2 h3 => exact absurd hq (by simp)
    | null => exact absurd hq (by simp [normEntry])
    | bool b => exact absurd hq (by simp [normEntry])
    | num m => exact absurd hq (by simp [normEntry])
    | str s => exact absurd hq (by simp [normEntry])
    | arr elems => exact absurd hq (by simp [normEntry])

/-- Witness for C5 amended at the concrete second entry of `c5data`. -/
theorem question_normalization_amended_witness :
    normEntry (fun _ => none) 1 c5entry = some c5q ∧
    (c5q.id = "q" ++ toString (1 + 1) ∧
      c5q.options.length = 4 ∧
      (∀ o ∈ c5q.options, pyStrip o = o) ∧
      pyStrip c5q.question = c5q.question ∧
      pyStrip c5q.correct_answer = c5q.correct_answer ∧
      pyStrip c5q.explanation = c5q.explanation ∧
      (∀ fields, c5entry = .obj fields → jGet fields "explanation" = none →
        c5q.explanation = "This is the correct answer.")) :=
  ⟨rfl, (question_normalization_amended (fun _ => none) c5data 5).2 1 c5entry c5q rfl⟩

end Monarch

namespace Monarch

/-! ### Inversion and idempotence lemmas for `_normalize_metadata` -/

/-- Successful normalization determines every output field. -/
theorem normalizeMetadata_ok_elim (m : MetaDict) (o : MetaOut)
    (h : normalizeMetadata m = .ok o) :
    ∃ t d s d0 a, stripField m.title 500 = .ok t ∧ stripField m.description 2000 = .ok d ∧
      stripField m.subject 100 = .ok s ∧ lowerDifficulty m.difficulty = .ok d0 ∧
      stripField m.author 200 = .ok a ∧
      o = ⟨t, d, s, if validDifficulties.contains d0 then d0 else "beginner", a,
        normYear m.publication_year⟩ := by
  unfold normalizeMetadata at h
  cases h1 : stripField m.title 500 with
  | error e => rw [h1] at h; simp [Bind.bind, Except.bind] at h
  | ok t =>
    rw [h1] at h
    cases h2 : stripField m.description 2000 with
    | error e => rw [h2] at h; simp [Bind.bind, Except.bind] at h
    | ok d =>
      rw [h2] at h
      cases h3 : stripField m.subject 100 with
      | error e => rw [h3] at h; simp [Bind.bind, Except.bind] at h
      | ok s =>
        rw [h3] at h
        cases h4 : lowerDifficulty m.difficulty with
        | error e => rw [h4] at h; simp [Bind.bind, Except.bind] at h
        | ok d0 =>
          rw [h4] at h
          cases h5 : stripField m.author 200 with
          | error e => rw [h5] at h; simp [Bind.bind, Except.bind] at h
          | ok a =>
            rw [h5] at h
            simp only [Bind.bind, Except.bind, Except.ok.injEq] at h
            exact ⟨t, d, s, d0, a, rfl, rfl, rfl, rfl, rfl, h.symm⟩

/-- A field produced by `stripField` fits its truncation limit. -/
theorem stripField_ok_length (v : JVal) (limit : Nat) (t : String)
    (h : stripField v limit = .ok t) : t.data.length ≤ limit := by
  unfold stripField at h
  split at h
  case _ s =>
    injection h with h
    rw [← h]
    simp [pyTake]
  case _ => exact absurd h (by simp)

/-- Re-stripping a stripped, in-limit field is the identity. -/
theorem stripField_restrip (t : String) (limit : Nat) (hfix : pyStrip t = t)
    (hlen : t.data.length ≤ limit) : stripField (.str t) limit = .ok t := by
  by_cases h0 : t = ""
  · subst h0
    unfold stripField
    simp [JVal.truthy, pyStrip, pyTake, stripChars]
  · unfold stripField
    have htr : (JVal.str t).truthy = true := by simp [JVal.truthy, h0]
    rw [if_pos htr]
    show Except.ok (pyTake limit (pyStrip t)) = Except.ok t
    rw [hfix]
    unfold pyTake
    rw [List.take_of_length_le hlen]

set_option maxRecDepth 20000 in
/-- The 201 in-range years survive a `str`/`int` round trip, and their
decimal renderings are truthy strings. -/
theorem year_roundtrip : ∀ k : Fin 201,
    (JVal.str (toString ((1900 : Int) + (k : Nat)))).truthy = true ∧
    pyIntOf (JVal.str (toString ((1900 : Int) + (k : Nat)))) = some ((1900 : Int) + (k : Nat)) := by
  decide

/-- The `publication_year` validation is idempotent. -/
theorem normYear_idem (v : JVal) : normYear (normYear v) = normYear v := by
  by_cases hv : v.truthy = true
  · cases hparse : pyIntOf v with
    | none =>
      have h1 : normYear v = .null := by
        unfold normYear
        rw [if_pos hv, hparse]
      rw [h1]
      rfl
    | some y =>
      by_cases hrange : 1900 ≤ y ∧ y ≤ 2100
      · have h1 : normYear v = .str (toString y) := by
          unfold normYear
          rw [if_pos hv, hparse]
          simp [hrange]
        have hk := year_roundtrip ⟨(y - 1900).toNat, by omega⟩
        have hcast : (1900 : Int) + (((y - 1900).toNat : Nat) : Int) = y := by omega
        rw [hcast] at hk
        rw [h1]
        unfold normYear
        rw [if_pos hk.1, hk.2]
        simp [hrange]
      · have h1 : normYear v = .null := by
          unfold normYear
          rw [if_pos hv, hparse]
          simp [hrange]
        rw [h1]
        rfl
  · have hv2 : v.truthy = false := by simpa using hv
    have h1 : normYear v = v := by
      unfold normYear
      rw [if_neg (by simp [hv2])]
    rw [h1, h1]

end Monarch

namespace Monarch

/-! ### Claim C7 — metadata normalization idempotence -/

/-- A 501-character title whose 500-character truncation ends in a space:
499 `x`s, a space, and a `y`. -/
def longTitle : String := String.mk (List.replicate 499 'x' ++ [' ', 'y'])

set_option maxRecDepth 40000 in
/-- C7 counterexample: truncation can expose trailing whitespace that a
second normalization strips. Normalizing `longTitle` once yields the
500-character `"x"*499 ++ " "`; normalizing that result again yields the
499-character `"x"*499`, so re-normalizing an already-normalized dict
changes the title. -/
theorem normalize_idem_cex :
    normalizeMetadata ⟨.str longTitle, .null, .null, .null, .null, .null⟩ =
      .ok ⟨String.mk (List.replicate 499 'x' ++ [' ']), "", "", "beginner", "", .null⟩ ∧
    normalizeMetadata
        (MetaOut.toDict ⟨String.mk (List.replicate 499 'x' ++ [' ']), "", "", "beginner", "",
          .null⟩) =
      .ok ⟨String.mk (List.replicate 499 'x'), "", "", "beginner", "", .null⟩ ∧
    String.mk (List.replicate 499 'x' ++ [' ']) ≠ String.mk (List.replicate 499 'x') := by
  refine ⟨rfl, rfl, by decide⟩

/-- C7 amended: normalization is idempotent on every successfully
normalized dict whose text fields were not cut mid-whitespace by
truncation — i.e. whenever the once-normalized title, description,
subject and author are strip-fixed (in particular whenever the stripped
inputs already fit the 500/2000/100/200 limits). The difficulty and
publication-year fields are idempotent unconditionally. -/
theorem normalize_idem_amended (m : MetaDict) (o : MetaOut)
    (h : normalizeMetadata m = .ok o)
    (ht : pyStrip o.title = o.title) (hd : pyStrip o.description = o.description)
    (hs : pyStrip o.subject = o.subject) (ha : pyStrip o.author = o.author) :
    normalizeMetadata o.toDict = .ok o := by
  obtain ⟨t, d, s, d0, a, h1, h2, h3, h4, h5, ho⟩ := normalizeMetadata_ok_elim m o h
  subst ho
  simp only at ht hd hs ha
  have hlt := stripField_ok_length _ _ _ h1
  have hld := stripField_ok_length _ _ _ h2
  have hls := stripField_ok_length _ _ _ h3
  have hla := stripField_ok_length _ _ _ h5
  have ht2 := stripField_restrip t 500 ht hlt
  have hd2 := stripField_restrip d 2000 hd hld
  have hs2 := stripField_restrip s 100 hs hls
  have ha2 := stripField_restrip a 200 ha hla
  have hdiff3 : (if validDifficulties.contains d0 then d0 else "beginner") = "beginner" ∨
      (if validDifficulties.contains d0 then d0 else "beginner") = "intermediate" ∨
      (if validDifficulties.contains d0 then d0 else "beginner") = "advanced" := by
    by_cases hc : validDifficulties.contains d0 = true
    · rw [if_pos hc]
      simpa [validDifficulties] using hc
    · rw [if_neg hc]
      exact Or.inl rfl
  have hyear := normYear_idem m.publication_year
  unfold normalizeMetadata MetaOut.toDict
  simp only [Bind.bind, Except.bind]
  rw [ht2, hd2, hs2, ha2, hyear]
  rcases hdiff3 with hdf | hdf | hdf <;> rw [hdf]
  · rw [show lowerDifficulty (JVal.str "beginner") = Except.ok "beginner" from rfl]
    rfl
  · rw [show lowerDifficulty (JVal.str "intermediate") = Except.ok "intermediate" from rfl]
    rfl
  · rw [show lowerDifficulty (JVal.str "advanced") = Except.ok "advanced" from rfl]
    rfl

end Monarch

namespace Monarch

/-- Witness for C7 amended: a dict whose stripped fields fit the limits
normalizes idempotently. -/
theorem normalize_idem_amended_witness :
    normalizeMetadata
        (MetaOut.toDict ⟨"Algebra Basics", "Linear equations.", "Math", "advanced", "",
          .str "1984"⟩) =
      .ok ⟨"Algebra Basics", "Linear equations.", "Math", "advanced", "", .str "1984"⟩ :=
  normalize_idem_amended
    ⟨.str " Algebra Basics ", .str "Linear equations.", .str "Math", .str "ADVANCED", .null,
      .num 1984⟩
    ⟨"Algebra Basics", "Linear equations.", "Math", "advanced", "", .str "1984"⟩
    rfl (by decide) (by decide) (by decide) (by decide)

/-! ### Claim C8 — publication_year normalization -/

/-- C8 counterexample: the falsy year `0` is passed through unchanged —
the output's `publication_year` is `0`, which is neither an integer in
[1900, 2100] nor absent (`None`), because the `if publication_year:`
guard skips validation for every falsy value. -/
theorem publication_year_cex :
    normalizeMetadata ⟨.str "t", .str "d", .str "s", .str "beginner", .str "a", .num 0⟩ =
      .ok ⟨"t", "d", "s", "beginner", "a", .num 0⟩ ∧
    JVal.num 0 ≠ JVal.null ∧ ¬ ((1900 : Int) ≤ 0) := by
  refine ⟨rfl, fun hcontra => JVal.noConfusion hcontra, by norm_num⟩

/-- C8 amended: `publication_year` is validated only when truthy — a
truthy value parsing to an integer in [1900, 2100] is kept as the
integer's decimal string, any other truthy value becomes `None`, and a
falsy value (`None`, `0`, `""`, `False`) is passed through unchanged. -/
theorem publication_year_amended (m : MetaDict) (o : MetaOut)
    (h : normalizeMetadata m = .ok o) :
    o.publication_year = normYear m.publication_year ∧
    (∀ y, m.publication_year.truthy = true → pyIntOf m.publication_year = some y →
      1900 ≤ y → y ≤ 2100 → o.publication_year = .str (toString y)) ∧
    (∀ y, m.publication_year.truthy = true → pyIntOf m.publication_year = some y →
      (y < 1900 ∨ 2100 < y) → o.publication_year = .null) ∧
    (m.publication_year.truthy = true → pyIntOf m.publication_year = none →
      o.publication_year = .null) ∧
    (m.publication_year.truthy = false → o.publication_year = m.publication_year) := by
  obtain ⟨t, d, s, d0, a, _, _, _, _, _, ho⟩ := normalizeMetadata_ok_elim m o h
  subst ho
  refine ⟨rfl, ?_, ?_, ?_, ?_⟩
  · intro y htr hp hy1 hy2
    show normYear m.publication_year = _
    unfold normYear
    rw [if_pos htr, hp]
    simp [hy1, hy2]
  · intro y htr hp hrange
    show normYear m.publication_year = _
    unfold normYear
    rw [if_pos htr, hp]
    have : ¬ (1900 ≤ y ∧ y ≤ 2100) := by omega
    simp [this]
  · intro htr hp
    show normYear m.publication_year = _
    unfold normYear
    rw [if_pos htr, hp]
  · intro hfalsy
    show normYear m.publication_year = _
    unfold normYear
    rw [if_neg (by simp [hfalsy])]

/-- Witness for C8 amended at a dict carrying the in-range year 1984. -/
theorem publication_year_amended_witness :
    (⟨"t", "d", "s", "beginner", "a", .str "1984"⟩ : MetaOut).publication_year =
      .str (toString (1984 : Int)) :=
  (publication_year_amended ⟨.str "t", .str "d", .str "s", .str "beginner", .str "a", .num 1984⟩
    ⟨"t", "d", "s", "beginner", "a", .str "1984"⟩ rfl).2.1 1984 rfl rfl (by norm_num)
    (by norm_num)

end Monarch

namespace Monarch

/-! ### Claim C10 — question count clamped to [3, 10] -/

/-- The validation loop never yields more than its remaining budget. -/
theorem validateGo_length_le (jl : String → Option JVal) (n : Nat) :
    ∀ (data : List JVal) (i : Nat), (validateGo jl i n data).length ≤ n - i := by
  intro data
  induction data with
  | nil => intro i; simp [validateGo]
  | cons v rest ih =>
    intro i
    by_cases h : n ≤ i
    · simp [validateGo, h]
    · unfold validateGo
      rw [if_neg h]
      cases normEntry jl i v with
      | none =>
        have := ih (i + 1)
        show (validateGo jl (i + 1) n rest).length ≤ n - i
        omega
      | some q =>
        have := ih (i + 1)
        show (q :: validateGo jl (i + 1) n rest).length ≤ n - i
        simp only [List.length_cons]
        omega

/-- Whatever the extraction produced, at most `expected_count` questions
come back. -/
theorem extractedQuestions_length_le (jl : String → Option JVal) (ext : Option JVal)
    (c : Nat) : (extractedQuestions jl ext c).length ≤ c := by
  have hval : ∀ l : List JVal, (validateQuestions jl l c).length ≤ c := by
    intro l
    have := validateGo_length_le jl c l 0
    simpa [validateQuestions] using this
  cases ext with
  | none => simp [extractedQuestions]
  | some data =>
    simp only [extractedQuestions]
    by_cases htr : (!data.truthy) = true
    · rw [if_pos htr]
      simp
    · rw [if_neg htr]
      cases data with
      | arr l => simpa using hval l
      | obj fields =>
        rcases hg : jGet fields "questions" with _ | w
        · simp [hg]
        · cases w with
          | arr l => simp only [hg]; exact hval l
          | null => simp [hg]
          | bool b => simp [hg]
          | num m => simp [hg]
          | str s2 => simp [hg]
          | obj f2 => simp [hg]
      | null => simp
      | bool b => simp
      | num m => simp
      | str s2 => simp

/-- A successful parse yields at most `expected_count` questions. -/
theorem parse_ok_length (jl er : String → Option JVal) (text : String) (c : Nat)
    (qs : List Question) (h : parseAIQuestionsResponse jl er text c = .ok qs) :
    qs.length ≤ c := by
  unfold parseAIQuestionsResponse at h
  by_cases h0 : pyStrip text = ""
  · rw [if_pos h0] at h
    injection h with h
    rw [← h]
    simp
  · rw [if_neg h0] at h
    by_cases h1 : containsAny (pyLower text) noContentIndicators = true
    · rw [if_pos h1] at h
      exact absurd h (by simp)
    · rw [if_neg h1] at h
      by_cases h2 : containsAny (pyLower text) generalKnowledgeIndicators = true
      · rw [if_pos h2] at h
        exact absurd h (by simp)
      · rw [if_neg h2] at h
        injection h with h
        rw [← h]
        exact extractedQuestions_length_le jl (er text) c

/-- C10: the requested count is clamped into [3, 10] before generation,
and a successfully returned assessment carries at most 10 questions
regardless of the supplied `num_questions`. -/
theorem num_questions_clamped (n : Int) (jl er : String → Option JVal) (text : String)
    (qs : List Question)
    (h : generateAssessmentQuestions jl er text (clampNumQuestions n).toNat = .ok qs) :
    3 ≤ clampNumQuestions n ∧ clampNumQuestions n ≤ 10 ∧ qs.length ≤ 10 := by
  have hc10 : clampNumQuestions n ≤ 10 := min_le_right _ _
  have hc3 : (3 : Int) ≤ clampNumQuestions n := le_min (le_max_right n 3) (by norm_num)
  refine ⟨hc3, hc10, ?_⟩
  have htn : (clampNumQuestions n).toNat ≤ 10 := by omega
  unfold generateAssessmentQuestions at h
  by_cases he :
      (generateQuestionsFromText jl er text (clampNumQuestions n).toNat).isEmpty = true
  · rw [if_pos he] at h
    exact absurd h (by simp)
  · rw [if_neg he] at h
    injection h with h
    rw [← h]
    unfold generateQuestionsFromText
    cases hp : parseAIQuestionsResponse jl er text (clampNumQuestions n).toNat with
    | error m2 => simp
    | ok l =>
      simp only
      exact le_trans (parse_ok_length jl er text _ l hp) htn

/-- Witness for C10 at `num_questions = 7` and a provider response that
parses into one valid question. -/
theorem num_questions_clamped_witness :
    3 ≤ clampNumQuestions 7 ∧ clampNumQuestions 7 ≤ 10 ∧
      ([⟨"q1", "What is X?", ["A", "B", "C", "D"], "A", "This is the correct answer."⟩] :
        List Question).length ≤ 10 :=
  num_questions_clamped 7 (fun _ => none)
    (fun _ => some (.arr [.obj [("question", .str "What is X?"),
      ("options", .arr [.str "A", .str "B", .str "C", .str "D"]),
      ("correct_answer", .str "A")]]))
    "Quiz content" _ rfl

end Monarch
